import Mathlib

/-!
Verification of `src/image.py` (`extract_frames_from_dicom`): a shallow
embedding of the DICOM-to-PNG frame extractor. Sample values are modelled
as rationals (the code computes in float64 on exact inputs), numpy arrays
as a shape list plus a flat sample list, and the function's side effects
(files written, directory creation, diagnostics) as an explicit record.
-/

namespace DicomImage

/-- Numpy sample dtypes; the code only ever tests equality with `np.uint8`. -/
inductive Dtype
  | uint8
  | uint16
  | int16
  | uint32
  | float32
  | float64
  deriving DecidableEq, Repr

/-- One frame: a numpy array slice with its shape, dtype and flat samples. -/
structure Frame where
  shape : List Nat
  dtype : Dtype
  samples : List ℚ
  deriving DecidableEq, Repr

/-- Minimum over all elements of the flattened array, as `np.min`
(the empty case never feeds the rescale because then max = min). -/
def listMin : List ℚ → ℚ
  | [] => 0
  | x :: xs => xs.foldl min x

/-- Maximum over all elements of the flattened array, as `np.max`. -/
def listMax : List ℚ → ℚ
  | [] => 0
  | x :: xs => xs.foldl max x

/-- Cast of a float64 value to `np.uint8` (`.astype(np.uint8)`): truncation
to an integer, reduced mod 256; for the values produced by the rescale the
argument lies in `[0, 255]`, where this is the floor. -/
def toUint8 (q : ℚ) : ℚ := ((⌊q⌋.toNat % 256 : ℕ) : ℚ)

/-- Normalization of one frame, `src/image.py` lines 75-84 (the same block
is repeated verbatim at lines 117-126 and 148-156): if the dtype is not
uint8, cast to float64, rescale by `255 * (in - min) / (max - min)` when
max and min differ, else zero the frame; then cast to uint8. A uint8 frame
passes through untouched. -/
def normalize (f : Frame) : Frame :=
  if f.dtype = Dtype.uint8 then f
  else
    let min_val := listMin f.samples
    let max_val := listMax f.samples
    if max_val ≠ min_val then
      { shape := f.shape, dtype := Dtype.uint8,
        samples := f.samples.map fun v =>
          toUint8 (255 * (v - min_val) / (max_val - min_val)) }
    else
      { shape := f.shape, dtype := Dtype.uint8,
        samples := f.samples.map fun _ => 0 }

/-- PIL encoding mode: `Image.fromarray(frame, 'L')` versus the
channel-inferring `Image.fromarray(frame)`. -/
inductive Mode
  | L
  | auto
  deriving DecidableEq, Repr

/-- One written PNG file: its filename and the encoded frame. -/
structure Artifact where
  name : String
  mode : Mode
  frame : Frame
  deriving DecidableEq, Repr

/-- Diagnostics printed by the function, one constructor per message kind. -/
inductive Diag
  | noPixelData
  | referencedImageSequence
  | unexpectedFrameShape (i : Nat)
  | unexpectedRank (ndim : Nat)
  | invalidDicomError
  | fileNotFoundError
  | unexpectedError
  deriving DecidableEq, Repr

/-- Zero-padding of a frame index to at least four digits, as Python's
format specifier `04d`. -/
def pad4 (i : Nat) : String :=
  let s := toString i
  String.mk (List.replicate (4 - s.length) '0') ++ s

/-- Filename of the i-th extracted frame. -/
def frameName (i : Nat) : String := "frame_" ++ pad4 i ++ ".png"

/-- Decoded pixel buffer `ds.pixel_array`: a numpy array of some rank. -/
structure PixelBuffer where
  shape : List Nat
  dtype : Dtype
  data : List ℚ
  deriving DecidableEq, Repr

/-- Rank of the array (`pixel_array.ndim`). -/
def PixelBuffer.ndim (b : PixelBuffer) : Nat := b.shape.length

/-- Leading-axis length (`pixel_array.shape[0]`). -/
def PixelBuffer.numFrames (b : PixelBuffer) : Nat := b.shape.headD 0

/-- Shape of one leading-axis slice `pixel_array[i]`. -/
def PixelBuffer.frameShape (b : PixelBuffer) : List Nat := b.shape.tail

/-- Flat samples of the leading-axis slice `pixel_array[i]`. -/
def PixelBuffer.frameData (b : PixelBuffer) (i : Nat) : List ℚ :=
  let fsize := b.frameShape.prod
  (b.data.drop (i * fsize)).take fsize

/-- The i-th frame of a multi-frame buffer, `frame = pixel_array[i]`. -/
def PixelBuffer.frameAt (b : PixelBuffer) (i : Nat) : Frame :=
  { shape := b.frameShape, dtype := b.dtype, samples := b.frameData i }

/-- Per-frame outcome inside the rank-3 loop: a saved PNG or a skip. -/
inductive FrameResult
  | saved (a : Artifact)
  | skipped (i : Nat)
  deriving DecidableEq, Repr

/-- Body of the rank-3 loop, lines 69-102: normalize, then dispatch on the
slice's rank (grayscale if 2-D, color if 3-D with trailing axis 3 or 4,
otherwise warn and `continue`). -/
def rank3Step (b : PixelBuffer) (i : Nat) : FrameResult :=
  let f := normalize (b.frameAt i)
  if f.shape.length = 2 then
    .saved { name := frameName i, mode := Mode.L, frame := f }
  else if f.shape.length = 3 ∧ (f.shape.getLastD 0 = 3 ∨ f.shape.getLastD 0 = 4) then
    .saved { name := frameName i, mode := Mode.auto, frame := f }
  else
    .skipped i

/-- Body of the rank-4 loop, lines 113-136: normalize and save with
channel inference; this branch has no shape check and no skip path. -/
def rank4Step (b : PixelBuffer) (i : Nat) : Artifact :=
  { name := frameName i, mode := Mode.auto, frame := normalize (b.frameAt i) }

/-- Successfully decoded DICOM dataset: presence of the pixel-data tag
(7FE0,0010), of the Referenced Image Sequence tag (0008,1140), and the
pixel array. -/
structure Dataset where
  hasPixelData : Bool
  hasReferencedImageSequence : Bool
  pixel : PixelBuffer
  deriving DecidableEq, Repr

/-- Result of `pydicom.dcmread`: a dataset, or one of the exception kinds
handled by the three `except` clauses at lines 170-178. -/
inductive ReadResult
  | ok (ds : Dataset)
  | invalidDicom
  | fileNotFound
  | otherException
  deriving DecidableEq, Repr

/-- Observable effects of one call to `extract_frames_from_dicom`:
whether an exception escaped to the caller, whether the per-source output
directory was created, the PNG files written, and the diagnostics. -/
structure ExtractResult where
  raised : Bool
  dirCreated : Bool
  artifacts : List Artifact
  diags : List Diag
  deriving DecidableEq, Repr

/-- Selection of the saved artifact from a per-frame outcome. -/
def savedArtifact : FrameResult → Option Artifact
  | .saved a => some a
  | .skipped _ => none

/-- Selection of the skip diagnostic from a per-frame outcome. -/
def skippedDiag : FrameResult → Option Diag
  | .saved _ => none
  | .skipped i => some (Diag.unexpectedFrameShape i)

/-- Processing of a decoded dataset, lines 33-167: return early when the
pixel-data tag is absent (optionally noting a Referenced Image Sequence);
otherwise create the output directory, then dispatch on the array rank in
source order (3, then 4, then 2, then the warning case). -/
def processDataset (ds : Dataset) : ExtractResult :=
  if ds.hasPixelData = false then
    { raised := false, dirCreated := false, artifacts := [],
      diags := Diag.noPixelData ::
        (if ds.hasReferencedImageSequence then [Diag.referencedImageSequence] else []) }
  else
    let b := ds.pixel
    if b.ndim = 3 then
      let results := (List.range b.numFrames).map (rank3Step b)
      { raised := false, dirCreated := true,
        artifacts := results.filterMap savedArtifact,
        diags := results.filterMap skippedDiag }
    else if b.ndim = 4 then
      { raised := false, dirCreated := true,
        artifacts := (List.range b.numFrames).map (rank4Step b),
        diags := [] }
    else if b.ndim = 2 then
      { raised := false, dirCreated := true,
        artifacts := [{ name := "single_frame.png", mode := Mode.L,
                        frame := normalize { shape := b.shape, dtype := b.dtype,
                                             samples := b.data } }],
        diags := [] }
    else
      { raised := false, dirCreated := true, artifacts := [],
        diags := [Diag.unexpectedRank b.ndim] }

/-- The whole function, lines 26-178: the `try` body on a successful read,
and each `except` clause printing a diagnostic and returning (never
re-raising). -/
def extract (r : ReadResult) : ExtractResult :=
  match r with
  | .ok ds => processDataset ds
  | .invalidDicom =>
      { raised := false, dirCreated := false, artifacts := [],
        diags := [Diag.invalidDicomError] }
  | .fileNotFound =>
      { raised := false, dirCreated := false, artifacts := [],
        diags := [Diag.fileNotFoundError] }
  | .otherException =>
      { raised := false, dirCreated := false, artifacts := [],
        diags := [Diag.unexpectedError] }

/-- Sample dataset with a rank-2 uint8 pixel array, for concrete runs. -/
def dsRank2 : Dataset :=
  { hasPixelData := true, hasReferencedImageSequence := false,
    pixel := { shape := [2, 2], dtype := Dtype.uint8, data := [1, 2, 3, 4] } }

/-- Sample dataset with a rank-3 uint16 pixel array of two 2x2 frames. -/
def dsRank3 : Dataset :=
  { hasPixelData := true, hasReferencedImageSequence := false,
    pixel := { shape := [2, 2, 2], dtype := Dtype.uint16,
               data := [0, 100, 0, 0, 7, 7, 7, 7] } }

/-- Sample dataset with a rank-4 uint16 pixel array of one 2x2 RGB frame. -/
def dsRank4 : Dataset :=
  { hasPixelData := true, hasReferencedImageSequence := false,
    pixel := { shape := [1, 2, 2, 3], dtype := Dtype.uint16,
               data := [0, 1, 2, 3, 4, 5, 6, 7, 8, 9, 10, 11] } }

/-- Sample dataset without the pixel-data tag but with a Referenced Image
Sequence tag, as a DICOMDIR-like file. -/
def dsNoPixel : Dataset :=
  { hasPixelData := false, hasReferencedImageSequence := true,
    pixel := { shape := [], dtype := Dtype.uint8, data := [] } }

/-- Sample dataset with a rank-1 pixel array (unrecognized rank). -/
def dsRank1 : Dataset :=
  { hasPixelData := true, hasReferencedImageSequence := false,
    pixel := { shape := [5], dtype := Dtype.uint8, data := [1, 2, 3, 4, 5] } }

/-! Helper lemmas about `listMin`, `listMax` and `toUint8`. -/

theorem foldl_min_le (xs : List ℚ) (x : ℚ) : xs.foldl min x ≤ x := by
  induction xs generalizing x with
  | nil => exact le_refl x
  | cons y ys ih => exact le_trans (ih (min x y)) (min_le_left x y)

theorem foldl_min_le_of_mem {a : ℚ} (xs : List ℚ) (x : ℚ) (ha : a ∈ xs) :
    xs.foldl min x ≤ a := by
  induction xs generalizing x with
  | nil => cases ha
  | cons y ys ih =>
    rcases List.mem_cons.mp ha with rfl | hmem
    · exact le_trans (foldl_min_le ys (min x a)) (min_le_right x a)
    · exact ih (min x y) hmem

theorem foldl_min_mem (xs : List ℚ) (x : ℚ) : xs.foldl min x ∈ x :: xs := by
  induction xs generalizing x with
  | nil => simp
  | cons y ys ih =>
    have h : List.foldl min x (y :: ys) = List.foldl min (min x y) ys := rfl
    rw [h]
    rcases List.mem_cons.mp (ih (min x y)) with heq | hmem
    · rcases min_choice x y with h1 | h1
      · rw [heq, h1]; exact List.mem_cons_self _ _
      · rw [heq, h1]; exact List.mem_cons_of_mem _ (List.mem_cons_self _ _)
    · exact List.mem_cons_of_mem _ (List.mem_cons_of_mem _ hmem)

theorem le_foldl_max (xs : List ℚ) (x : ℚ) : x ≤ xs.foldl max x := by
  induction xs generalizing x with
  | nil => exact le_refl x
  | cons y ys ih => exact le_trans (le_max_left x y) (ih (max x y))

theorem mem_le_foldl_max {a : ℚ} (xs : List ℚ) (x : ℚ) (ha : a ∈ xs) :
    a ≤ xs.foldl max x := by
  induction xs generalizing x with
  | nil => cases ha
  | cons y ys ih =>
    rcases List.mem_cons.mp ha with rfl | hmem
    · exact le_trans (le_max_right x a) (le_foldl_max ys (max x a))
    · exact ih (max x y) hmem

theorem foldl_max_mem (xs : List ℚ) (x : ℚ) : xs.foldl max x ∈ x :: xs := by
  induction xs generalizing x with
  | nil => simp
  | cons y ys ih =>
    have h : List.foldl max x (y :: ys) = List.foldl max (max x y) ys := rfl
    rw [h]
    rcases List.mem_cons.mp (ih (max x y)) with heq | hmem
    · rcases max_choice x y with h1 | h1
      · rw [heq, h1]; exact List.mem_cons_self _ _
      · rw [heq, h1]; exact List.mem_cons_of_mem _ (List.mem_cons_self _ _)
    · exact List.mem_cons_of_mem _ (List.mem_cons_of_mem _ hmem)

theorem listMin_le {a : ℚ} {l : List ℚ} (ha : a ∈ l) : listMin l ≤ a := by
  cases l with
  | nil => cases ha
  | cons x xs =>
    rcases List.mem_cons.mp ha with rfl | hmem
    · exact foldl_min_le xs a
    · exact foldl_min_le_of_mem xs x hmem

theorem listMin_mem {l : List ℚ} (h : l ≠ []) : listMin l ∈ l := by
  cases l with
  | nil => exact absurd rfl h
  | cons x xs => exact foldl_min_mem xs x

theorem le_listMax {a : ℚ} {l : List ℚ} (ha : a ∈ l) : a ≤ listMax l := by
  cases l with
  | nil => cases ha
  | cons x xs =>
    rcases List.mem_cons.mp ha with rfl | hmem
    · exact le_foldl_max xs a
    · exact mem_le_foldl_max xs x hmem

theorem listMax_mem {l : List ℚ} (h : l ≠ []) : listMax l ∈ l := by
  cases l with
  | nil => exact absurd rfl h
  | cons x xs => exact foldl_max_mem xs x

theorem toUint8_nonneg (q : ℚ) : 0 ≤ toUint8 q := by
  unfold toUint8
  exact Nat.cast_nonneg _

theorem toUint8_le_255 (q : ℚ) : toUint8 q ≤ 255 := by
  unfold toUint8
  have h : ⌊q⌋.toNat % 256 < 256 := Nat.mod_lt _ (by norm_num)
  have h2 : ⌊q⌋.toNat % 256 ≤ 255 := by omega
  exact_mod_cast h2

theorem toUint8_zero : toUint8 0 = 0 := by
  norm_num [toUint8]

theorem toUint8_255 : toUint8 255 = 255 := by
  have h : ⌊(255 : ℚ)⌋ = 255 := by norm_num
  have h2 : Int.toNat 255 % 256 = 255 := by decide
  unfold toUint8
  rw [h, h2]
  norm_num

theorem normalize_eq_map (f : Frame) (h : f.dtype ≠ Dtype.uint8)
    (hne : listMax f.samples ≠ listMin f.samples) :
    normalize f = { shape := f.shape, dtype := Dtype.uint8,
                    samples := f.samples.map (fun v =>
                      toUint8 (255 * (v - listMin f.samples) /
                        (listMax f.samples - listMin f.samples))) } := by
  simp [normalize, h, hne]

theorem normalize_eq_zero_map (f : Frame) (h : f.dtype ≠ Dtype.uint8)
    (heq : listMax f.samples = listMin f.samples) :
    normalize f = { shape := f.shape, dtype := Dtype.uint8,
                    samples := f.samples.map (fun _ => (0 : ℚ)) } := by
  simp [normalize, h, heq]

/-- C1: for every frame whose dtype is not uint8, normalization yields a
uint8 frame of the same shape and sample count; when the values are
non-uniform each output sample is `toUint8 (255 * (v - min) / (max - min))`
and the output's minimum is 0 and maximum 255; when the values are uniform
the output is all-zero. -/
theorem normalize_nonuint8_spec (f : Frame) (h : f.dtype ≠ Dtype.uint8) :
    (normalize f).dtype = Dtype.uint8 ∧
    (normalize f).shape = f.shape ∧
    (normalize f).samples.length = f.samples.length ∧
    (listMax f.samples ≠ listMin f.samples →
      (normalize f).samples = f.samples.map (fun v =>
        toUint8 (255 * (v - listMin f.samples) / (listMax f.samples - listMin f.samples))) ∧
      listMin ((normalize f).samples) = 0 ∧
      listMax ((normalize f).samples) = 255) ∧
    (listMax f.samples = listMin f.samples →
      (normalize f).samples = f.samples.map fun _ => (0 : ℚ)) := by
  rcases eq_or_ne (listMax f.samples) (listMin f.samples) with heq | hne
  · rw [normalize_eq_zero_map f h heq]
    refine ⟨rfl, rfl, by simp, ?_, ?_⟩
    · intro hc; exact absurd heq hc
    · intro _; rfl
  · have hmap := normalize_eq_map f h hne
    have hsne : f.samples ≠ [] := by
      intro he
      rw [he] at hne
      exact hne rfl
    set mn := listMin f.samples with hmn
    set mx := listMax f.samples with hmx
    have hsamp : (normalize f).samples =
        f.samples.map (fun v => toUint8 (255 * (v - mn) / (mx - mn))) := by
      rw [hmap]
    have hg_mn : toUint8 (255 * (mn - mn) / (mx - mn)) = 0 := by
      rw [sub_self, mul_zero, zero_div, toUint8_zero]
    have hg_mx : toUint8 (255 * (mx - mn) / (mx - mn)) = 255 := by
      rw [mul_div_assoc, div_self (sub_ne_zero.mpr hne), mul_one, toUint8_255]
    have h0mem : (0 : ℚ) ∈ (normalize f).samples := by
      rw [hsamp]
      exact List.mem_map.mpr ⟨mn, listMin_mem hsne, hg_mn⟩
    have h255mem : (255 : ℚ) ∈ (normalize f).samples := by
      rw [hsamp]
      exact List.mem_map.mpr ⟨mx, listMax_mem hsne, hg_mx⟩
    have hbound : ∀ w ∈ (normalize f).samples, 0 ≤ w ∧ w ≤ 255 := by
      rw [hsamp]
      intro w hw
      rcases List.mem_map.mp hw with ⟨v, _, rfl⟩
      exact ⟨toUint8_nonneg _, toUint8_le_255 _⟩
    have houtne : (normalize f).samples ≠ [] := by
      intro he
      rw [he] at h0mem
      exact List.not_mem_nil _ h0mem
    refine ⟨?_, ?_, ?_, ?_, ?_⟩
    · rw [hmap]
    · rw [hmap]
    · rw [hsamp, List.length_map]
    · intro _
      refine ⟨hsamp, ?_, ?_⟩
      · exact le_antisymm (listMin_le h0mem) ((hbound _ (listMin_mem houtne)).1)
      · exact le_antisymm ((hbound _ (listMax_mem houtne)).2) (le_listMax h255mem)
    · intro hc
      exact absurd hc hne

/-- Witness for C1 at the concrete frame `uint16 [0, 100, 1000]`. -/
theorem normalize_nonuint8_spec_witness :
    (Frame.mk [3] Dtype.uint16 [0, 100, 1000]).dtype ≠ Dtype.uint8 ∧
    ((normalize (Frame.mk [3] Dtype.uint16 [0, 100, 1000])).dtype = Dtype.uint8 ∧
     (normalize (Frame.mk [3] Dtype.uint16 [0, 100, 1000])).shape =
       (Frame.mk [3] Dtype.uint16 [0, 100, 1000]).shape ∧
     (normalize (Frame.mk [3] Dtype.uint16 [0, 100, 1000])).samples.length =
       (Frame.mk [3] Dtype.uint16 [0, 100, 1000]).samples.length ∧
     (listMax (Frame.mk [3] Dtype.uint16 [0, 100, 1000]).samples ≠
        listMin (Frame.mk [3] Dtype.uint16 [0, 100, 1000]).samples →
       (normalize (Frame.mk [3] Dtype.uint16 [0, 100, 1000])).samples =
         (Frame.mk [3] Dtype.uint16 [0, 100, 1000]).samples.map (fun v =>
           toUint8 (255 * (v - listMin (Frame.mk [3] Dtype.uint16 [0, 100, 1000]).samples) /
             (listMax (Frame.mk [3] Dtype.uint16 [0, 100, 1000]).samples -
              listMin (Frame.mk [3] Dtype.uint16 [0, 100, 1000]).samples))) ∧
       listMin ((normalize (Frame.mk [3] Dtype.uint16 [0, 100, 1000])).samples) = 0 ∧
       listMax ((normalize (Frame.mk [3] Dtype.uint16 [0, 100, 1000])).samples) = 255) ∧
     (listMax (Frame.mk [3] Dtype.uint16 [0, 100, 1000]).samples =
        listMin (Frame.mk [3] Dtype.uint16 [0, 100, 1000]).samples →
       (normalize (Frame.mk [3] Dtype.uint16 [0, 100, 1000])).samples =
         (Frame.mk [3] Dtype.uint16 [0, 100, 1000]).samples.map fun _ => (0 : ℚ))) :=
  ⟨by decide, normalize_nonuint8_spec (Frame.mk [3] Dtype.uint16 [0, 100, 1000]) (by decide)⟩

/-- C2: for every frame whose dtype is already uint8, normalization is the
identity: the frame reaches the encoding step with every sample unchanged. -/
theorem normalize_uint8_id (f : Frame) (h : f.dtype = Dtype.uint8) :
    normalize f = f := by
  simp [normalize, h]

/-- Witness for C2 at the concrete frame `uint8 [5, 0, 255, 17]`. -/
theorem normalize_uint8_id_witness :
    (Frame.mk [2, 2] Dtype.uint8 [5, 0, 255, 17]).dtype = Dtype.uint8 ∧
    normalize (Frame.mk [2, 2] Dtype.uint8 [5, 0, 255, 17]) =
      Frame.mk [2, 2] Dtype.uint8 [5, 0, 255, 17] :=
  ⟨rfl, normalize_uint8_id (Frame.mk [2, 2] Dtype.uint8 [5, 0, 255, 17]) rfl⟩

theorem normalize_shape (f : Frame) : (normalize f).shape = f.shape := by
  by_cases h : f.dtype = Dtype.uint8
  · simp [normalize, h]
  · rcases eq_or_ne (listMax f.samples) (listMin f.samples) with heq | hne
    · rw [normalize_eq_zero_map f h heq]
    · rw [normalize_eq_map f h hne]

theorem frameShape_length {b : PixelBuffer} (h : b.ndim = 3) :
    b.frameShape.length = 2 := by
  unfold PixelBuffer.ndim at h
  unfold PixelBuffer.frameShape
  rw [List.length_tail, h]

theorem rank3Step_eq {b : PixelBuffer} (h : b.ndim = 3) (i : Nat) :
    rank3Step b i = FrameResult.saved
      { name := frameName i, mode := Mode.L, frame := normalize (b.frameAt i) } := by
  have hs : (normalize (b.frameAt i)).shape.length = 2 := by
    rw [normalize_shape]
    exact frameShape_length h
  simp [rank3Step, hs]

theorem rank3_collect (b : PixelBuffer) (h : b.ndim = 3) (l : List Nat) :
    ((l.map (rank3Step b)).filterMap savedArtifact =
      l.map (fun i =>
        { name := frameName i, mode := Mode.L, frame := normalize (b.frameAt i) })) ∧
    (l.map (rank3Step b)).filterMap skippedDiag = [] := by
  induction l with
  | nil => simp
  | cons x xs ih =>
    simp [rank3Step_eq h, savedArtifact, skippedDiag, ih.1, ih.2]

theorem extract_rank3_eq (ds : Dataset) (hpx : ds.hasPixelData = true)
    (h3 : ds.pixel.ndim = 3) :
    (extract (ReadResult.ok ds)).artifacts =
      (List.range ds.pixel.numFrames).map (fun i =>
        { name := frameName i, mode := Mode.L,
          frame := normalize (ds.pixel.frameAt i) }) ∧
    (extract (ReadResult.ok ds)).diags = [] ∧
    (extract (ReadResult.ok ds)).dirCreated = true ∧
    (extract (ReadResult.ok ds)).raised = false := by
  have hb := rank3_collect ds.pixel h3 (List.range ds.pixel.numFrames)
  simp [extract, processDataset, hpx, h3, hb.1, hb.2]

theorem extract_rank4_eq (ds : Dataset) (hpx : ds.hasPixelData = true)
    (h4 : ds.pixel.ndim = 4) :
    (extract (ReadResult.ok ds)).artifacts =
      (List.range ds.pixel.numFrames).map (rank4Step ds.pixel) ∧
    (extract (ReadResult.ok ds)).diags = [] ∧
    (extract (ReadResult.ok ds)).dirCreated = true ∧
    (extract (ReadResult.ok ds)).raised = false := by
  simp [extract, processDataset, hpx, h4]

theorem extract_ok_raised (ds : Dataset) :
    (extract (ReadResult.ok ds)).raised = false := by
  by_cases hpx : ds.hasPixelData = false
  · simp [extract, processDataset, hpx]
  · have hpx' : ds.hasPixelData = true := by
      cases h : ds.hasPixelData with
      | false => exact absurd h hpx
      | true => rfl
    by_cases h3 : ds.pixel.ndim = 3
    · simp [extract, processDataset, hpx', h3]
    · by_cases h4 : ds.pixel.ndim = 4
      · simp [extract, processDataset, hpx', h3, h4]
      · by_cases h2 : ds.pixel.ndim = 2
        · simp [extract, processDataset, hpx', h3, h4, h2]
        · simp [extract, processDataset, hpx', h3, h4, h2]

/-- C3: for every dataset whose pixel buffer has rank 2, extraction writes
exactly one artifact, named `single_frame.png`, encoded grayscale (mode L),
into the per-source output directory (which is created). -/
theorem extract_rank2_single (ds : Dataset) (hpx : ds.hasPixelData = true)
    (h2 : ds.pixel.ndim = 2) :
    (extract (ReadResult.ok ds)).artifacts =
      [{ name := "single_frame.png", mode := Mode.L,
         frame := normalize { shape := ds.pixel.shape, dtype := ds.pixel.dtype,
                              samples := ds.pixel.data } }] ∧
    (extract (ReadResult.ok ds)).dirCreated = true := by
  simp [extract, processDataset, hpx, h2]

/-- Witness for C3 at the concrete rank-2 dataset `dsRank2`. -/
theorem extract_rank2_single_witness :
    dsRank2.hasPixelData = true ∧ dsRank2.pixel.ndim = 2 ∧
    ((extract (ReadResult.ok dsRank2)).artifacts =
      [{ name := "single_frame.png", mode := Mode.L,
         frame := normalize { shape := dsRank2.pixel.shape, dtype := dsRank2.pixel.dtype,
                              samples := dsRank2.pixel.data } }] ∧
     (extract (ReadResult.ok dsRank2)).dirCreated = true) :=
  ⟨rfl, rfl, extract_rank2_single dsRank2 rfl rfl⟩

/-- C4: for every dataset whose pixel buffer has rank 3 with N frames,
extraction writes at most N artifacts; in fact the artifact names are
exactly `frame_0000.png` through the zero-padded index N-1, every frame's
artifact being present (no frame is ever anomalous, see C9). -/
theorem extract_rank3_artifacts (ds : Dataset) (hpx : ds.hasPixelData = true)
    (h3 : ds.pixel.ndim = 3) :
    (extract (ReadResult.ok ds)).artifacts.length ≤ ds.pixel.numFrames ∧
    (extract (ReadResult.ok ds)).artifacts.map Artifact.name =
      (List.range ds.pixel.numFrames).map frameName := by
  have h := extract_rank3_eq ds hpx h3
  constructor
  · simp [h.1]
  · rw [h.1, List.map_map]
    rfl

/-- Witness for C4 at the concrete rank-3 dataset `dsRank3`. -/
theorem extract_rank3_artifacts_witness :
    dsRank3.hasPixelData = true ∧ dsRank3.pixel.ndim = 3 ∧
    ((extract (ReadResult.ok dsRank3)).artifacts.length ≤ dsRank3.pixel.numFrames ∧
     (extract (ReadResult.ok dsRank3)).artifacts.map Artifact.name =
       (List.range dsRank3.pixel.numFrames).map frameName) :=
  ⟨rfl, rfl, extract_rank3_artifacts dsRank3 rfl rfl⟩

/-- C5: for every dataset whose pixel buffer has rank 4 with N frames,
extraction writes exactly N artifacts named `frame_0000.png` through the
zero-padded index N-1; this branch has no skip path. -/
theorem extract_rank4_artifacts (ds : Dataset) (hpx : ds.hasPixelData = true)
    (h4 : ds.pixel.ndim = 4) :
    (extract (ReadResult.ok ds)).artifacts.length = ds.pixel.numFrames ∧
    (extract (ReadResult.ok ds)).artifacts.map Artifact.name =
      (List.range ds.pixel.numFrames).map frameName := by
  have h := extract_rank4_eq ds hpx h4
  constructor
  · simp [h.1]
  · rw [h.1, List.map_map]
    rfl

/-- Witness for C5 at the concrete rank-4 dataset `dsRank4`. -/
theorem extract_rank4_artifacts_witness :
    dsRank4.hasPixelData = true ∧ dsRank4.pixel.ndim = 4 ∧
    ((extract (ReadResult.ok dsRank4)).artifacts.length = dsRank4.pixel.numFrames ∧
     (extract (ReadResult.ok dsRank4)).artifacts.map Artifact.name =
       (List.range dsRank4.pixel.numFrames).map frameName) :=
  ⟨rfl, rfl, extract_rank4_artifacts dsRank4 rfl rfl⟩

/-- C6: for every dataset without the pixel-data tag, extraction returns
normally with zero artifacts and no exception; when a Referenced Image
Sequence tag is additionally present, a secondary diagnostic is emitted
after the primary one, with artifacts still empty. -/
theorem extract_no_pixel_data (ds : Dataset) (hpx : ds.hasPixelData = false) :
    (extract (ReadResult.ok ds)).artifacts = [] ∧
    (extract (ReadResult.ok ds)).raised = false ∧
    Diag.noPixelData ∈ (extract (ReadResult.ok ds)).diags ∧
    (ds.hasReferencedImageSequence = true →
      (extract (ReadResult.ok ds)).diags =
        [Diag.noPixelData, Diag.referencedImageSequence]) ∧
    (ds.hasReferencedImageSequence = false →
      (extract (ReadResult.ok ds)).diags = [Diag.noPixelData]) := by
  refine ⟨by simp [extract, processDataset, hpx],
          by simp [extract, processDataset, hpx], ?_, ?_, ?_⟩
  · simp [extract, processDataset, hpx]
  · intro hr
    simp [extract, processDataset, hpx, hr]
  · intro hr
    simp [extract, processDataset, hpx, hr]

/-- Witness for C6 at the concrete tag-only dataset `dsNoPixel`. -/
theorem extract_no_pixel_data_witness :
    dsNoPixel.hasPixelData = false ∧
    ((extract (ReadResult.ok dsNoPixel)).artifacts = [] ∧
     (extract (ReadResult.ok dsNoPixel)).raised = false ∧
     Diag.noPixelData ∈ (extract (ReadResult.ok dsNoPixel)).diags ∧
     (dsNoPixel.hasReferencedImageSequence = true →
       (extract (ReadResult.ok dsNoPixel)).diags =
         [Diag.noPixelData, Diag.referencedImageSequence]) ∧
     (dsNoPixel.hasReferencedImageSequence = false →
       (extract (ReadResult.ok dsNoPixel)).diags = [Diag.noPixelData])) :=
  ⟨rfl, extract_no_pixel_data dsNoPixel rfl⟩

/-- C7: extraction never lets an exception escape to its caller, whatever
the read outcome; on each of the three handled error kinds (invalid DICOM
format, missing input file, any other exception) it returns with zero
artifacts. -/
theorem extract_never_raises (r : ReadResult) :
    (extract r).raised = false ∧
    ((r = ReadResult.invalidDicom ∨ r = ReadResult.fileNotFound ∨
      r = ReadResult.otherException) → (extract r).artifacts = []) := by
  cases r with
  | ok ds =>
    refine ⟨extract_ok_raised ds, ?_⟩
    intro h
    rcases h with h | h | h <;> simp at h
  | invalidDicom => exact ⟨rfl, fun _ => rfl⟩
  | fileNotFound => exact ⟨rfl, fun _ => rfl⟩
  | otherException => exact ⟨rfl, fun _ => rfl⟩

/-- C8: for every dataset whose pixel buffer has a rank other than 2, 3 or
4, extraction warns about the unexpected rank and aborts the file with
zero artifacts and no exception. -/
theorem extract_unrecognized_rank (ds : Dataset) (hpx : ds.hasPixelData = true)
    (hn2 : ds.pixel.ndim ≠ 2) (hn3 : ds.pixel.ndim ≠ 3) (hn4 : ds.pixel.ndim ≠ 4) :
    (extract (ReadResult.ok ds)).artifacts = [] ∧
    (extract (ReadResult.ok ds)).diags = [Diag.unexpectedRank ds.pixel.ndim] ∧
    (extract (ReadResult.ok ds)).raised = false := by
  simp [extract, processDataset, hpx, hn2, hn3, hn4]

/-- Witness for C8 at the concrete rank-1 dataset `dsRank1`. -/
theorem extract_unrecognized_rank_witness :
    dsRank1.hasPixelData = true ∧
    dsRank1.pixel.ndim ≠ 2 ∧ dsRank1.pixel.ndim ≠ 3 ∧ dsRank1.pixel.ndim ≠ 4 ∧
    ((extract (ReadResult.ok dsRank1)).artifacts = [] ∧
     (extract (ReadResult.ok dsRank1)).diags = [Diag.unexpectedRank dsRank1.pixel.ndim] ∧
     (extract (ReadResult.ok dsRank1)).raised = false) :=
  ⟨rfl, by decide, by decide, by decide,
   extract_unrecognized_rank dsRank1 rfl (by decide) (by decide) (by decide)⟩

/-- C9: slicing the leading axis of a rank-3 buffer always yields a rank-2
frame, so inside the rank-3 loop the color branch and the skip branch are
unreachable: every frame is saved through the grayscale encode step, all N
artifacts are produced and no shape warning is emitted. -/
theorem rank3_frames_never_skipped (ds : Dataset) (hpx : ds.hasPixelData = true)
    (h3 : ds.pixel.ndim = 3) :
    (∀ i, rank3Step ds.pixel i = FrameResult.saved
      { name := frameName i, mode := Mode.L,
        frame := normalize (ds.pixel.frameAt i) }) ∧
    (extract (ReadResult.ok ds)).artifacts.length = ds.pixel.numFrames ∧
    (∀ a ∈ (extract (ReadResult.ok ds)).artifacts, a.mode = Mode.L) ∧
    (extract (ReadResult.ok ds)).diags = [] := by
  have h := extract_rank3_eq ds hpx h3
  refine ⟨fun i => rank3Step_eq h3 i, ?_, ?_, h.2.1⟩
  · simp [h.1]
  · rw [h.1]
    intro a ha
    rcases List.mem_map.mp ha with ⟨i, _, rfl⟩
    rfl

/-- Witness for C9 at the concrete rank-3 dataset `dsRank3`. -/
theorem rank3_frames_never_skipped_witness :
    dsRank3.hasPixelData = true ∧ dsRank3.pixel.ndim = 3 ∧
    ((∀ i, rank3Step dsRank3.pixel i = FrameResult.saved
      { name := frameName i, mode := Mode.L,
        frame := normalize (dsRank3.pixel.frameAt i) }) ∧
     (extract (ReadResult.ok dsRank3)).artifacts.length = dsRank3.pixel.numFrames ∧
     (∀ a ∈ (extract (ReadResult.ok dsRank3)).artifacts, a.mode = Mode.L) ∧
     (extract (ReadResult.ok dsRank3)).diags = []) :=
  ⟨rfl, rfl, rank3_frames_never_skipped dsRank3 rfl rfl⟩

/-- C10: whenever the dataset has pixel data, the per-source output
directory is created before the rank dispatch, so even an unrecognized
rank (which yields zero artifacts) leaves the directory created. -/
theorem output_dir_created (ds : Dataset) (hpx : ds.hasPixelData = true) :
    (extract (ReadResult.ok ds)).dirCreated = true ∧
    ((ds.pixel.ndim ≠ 2 ∧ ds.pixel.ndim ≠ 3 ∧ ds.pixel.ndim ≠ 4) →
      (extract (ReadResult.ok ds)).artifacts = [] ∧
      (extract (ReadResult.ok ds)).dirCreated = true) := by
  have hdir : (extract (ReadResult.ok ds)).dirCreated = true := by
    by_cases h3 : ds.pixel.ndim = 3
    · simp [extract, processDataset, hpx, h3]
    · by_cases h4 : ds.pixel.ndim = 4
      · simp [extract, processDataset, hpx, h3, h4]
      · by_cases h2 : ds.pixel.ndim = 2
        · simp [extract, processDataset, hpx, h3, h4, h2]
        · simp [extract, processDataset, hpx, h3, h4, h2]
  refine ⟨hdir, fun h => ⟨?_, hdir⟩⟩
  simp [extract, processDataset, hpx, h.1, h.2.1, h.2.2]

/-- Witness for C10 at the concrete rank-1 dataset `dsRank1`. -/
theorem output_dir_created_witness :
    dsRank1.hasPixelData = true ∧
    ((extract (ReadResult.ok dsRank1)).dirCreated = true ∧
     ((dsRank1.pixel.ndim ≠ 2 ∧ dsRank1.pixel.ndim ≠ 3 ∧ dsRank1.pixel.ndim ≠ 4) →
       (extract (ReadResult.ok dsRank1)).artifacts = [] ∧
       (extract (ReadResult.ok dsRank1)).dirCreated = true)) :=
  ⟨rfl, output_dir_created dsRank1 rfl⟩

end DicomImage
